import Mathlib

/-!
Verification of the PropertyTaxes frontend core against its design spec.

The development shallowly embeds the two reviewed components:
* the tier-editing operations of `frontend/src/components/PolicyTiersModal.jsx`
  (`handleTierChange`, `addTier`, `removeTier`), and
* the Redux store of `frontend/src/store/forecastSlice.js`
  (localStorage helpers, the `updatePolicy` reducer, and the async-thunk
  reducers for `fetchDefaultPolicy`, `fetchDefaults`, `calculateForecast`,
  `fetchTierParcelCounts`).

Modelling conventions:
* JS `null`/`undefined` numeric fields are `Option` values; `up_to` is an
  `Option Int` (the source always writes `parseInt` results there) and
  `rate` an `Option ℚ` (the source writes `parseFloat` results).
* JS truthiness tests such as `policy.rate || 10` are modelled by explicit
  helpers (`jsOrQ`, `jsOrInt`, `jsTruthy`) that treat `null`/`0`/`""` as
  falsy, exactly as JS does on the value ranges the source stores.
* `Array.prototype.sort` with the source's comparator is modelled by a
  stable insertion sort; for inputs on which the comparator is consistent
  (at most one `up_to = null` entry, which is all the spec's invariant
  allows) the ECMAScript stable-sort result is unique, so the two agree.
* The numeric parsing of `handleTierChange` (`String(value).replace(/,/g,'')`
  then `parseInt`/`parseFloat`) is modelled by taking the parse result as
  the input, with `none` standing for `NaN`; the source's
  `isNaN(parsedValue) ? 0 : parsedValue` coercion is kept explicitly.
-/

namespace PropertyTaxes

/-- One bracket of a tiered policy: `{ rate: number, up_to: number | null }`. -/
structure Tier where
  rate : Option ℚ
  up_to : Option Int
deriving DecidableEq, Repr

/-- A per-class policy object: `rate` (flat) and/or `tiers` (tiered).
The source code distinguishes the shapes by which field is non-null. -/
structure ClassPolicy where
  rate : Option ℚ
  tiers : Option (List Tier)
deriving DecidableEq, Repr

/-- JS `v || d` on a nullable number `v`: `null`, `undefined` and `0` are falsy. -/
def jsOrQ (v : Option ℚ) (d : ℚ) : ℚ :=
  match v with
  | none => d
  | some x => if x = 0 then d else x

/-- JS `v || d` on a nullable integer `v`: `null`, `undefined` and `0` are falsy. -/
def jsOrInt (v : Option Int) (d : Int) : Int :=
  match v with
  | none => d
  | some x => if x = 0 then d else x

/-- The tier comparator of `PolicyTiersModal.jsx` as a `≤` test:
`cmp(a,b) ≤ 0` where `cmp` returns 1 if `a.up_to === null`, -1 if
`b.up_to === null`, else `a.up_to - b.up_to`. -/
def tierLE (a b : Tier) : Bool :=
  match a.up_to, b.up_to with
  | none, _ => false
  | some _, none => true
  | some x, some y => decide (x ≤ y)

/-- Stable insertion of one tier, auxiliary to `sortTiers`. -/
def insertTier (t : Tier) : List Tier → List Tier
  | [] => [t]
  | y :: ys => if tierLE t y then t :: y :: ys else y :: insertTier t ys

/-- `tiers.sort(comparator)`: stable sort by the source's comparator. -/
def sortTiers (l : List Tier) : List Tier :=
  l.foldr insertTier []

/-- A tier-field edit, carrying the already-parsed numeric value:
`up_to` values come from `parseInt`, `rate` values from `parseFloat`;
`none` models a `NaN` parse result. -/
inductive FieldEdit where
  | up_to (v : Option Int)
  | rate (v : Option ℚ)

/-- `newTiers[tierIndex] = { ...newTiers[tierIndex], [field]: isNaN(parsedValue) ? 0 : parsedValue }`. -/
def setTierField (t : Tier) (e : FieldEdit) : Tier :=
  match e with
  | .up_to v => { t with up_to := some (v.getD 0) }
  | .rate v => { t with rate := some (v.getD 0) }

/-- The tier-list part of `handleTierChange`: replace one field of the tier
at `i`, then re-sort with the comparator. (Out-of-range `i` in JS would
spread `undefined`, i.e. a tier with both fields absent — the default
passed to `getD`.) -/
def changeTierFieldList (tiers : List Tier) (i : Nat) (e : FieldEdit) : List Tier :=
  sortTiers (tiers.set i (setTierField (tiers.getD i ⟨none, none⟩) e))

/-- `handleTierChange` commits `{ ...policy, tiers: sortedTiers }`. -/
def handleTierChange (p : ClassPolicy) (i : Nat) (e : FieldEdit) : ClassPolicy :=
  { p with tiers := some (changeTierFieldList (p.tiers.getD []) i e) }

/-- `addTier` of `PolicyTiersModal.jsx`. -/
def addTier (p : ClassPolicy) : ClassPolicy :=
  let currentTiers := p.tiers.getD []   -- policy.tiers || []
  if currentTiers.length = 0 then
    let newTier : Tier := { rate := some (jsOrQ p.rate 10), up_to := none }
    { p with rate := none, tiers := some [newTier] }
  else
    let sortedCurrentTiers := sortTiers currentTiers
    let lastTierIndex := sortedCurrentTiers.length - 1
    let lastTier := sortedCurrentTiers.getD lastTierIndex ⟨none, none⟩
    let lowerBoundOfLastTier : Option Int :=
      if lastTierIndex > 0 then (sortedCurrentTiers.getD (lastTierIndex - 1) ⟨none, none⟩).up_to
      else some 0
    let updatedLastTier : Tier := { lastTier with up_to := some (jsOrInt lowerBoundOfLastTier 0 + 1000000) }
    let newTier : Tier := { rate := lastTier.rate, up_to := none }
    { p with rate := none,
             tiers := some (sortedCurrentTiers.take lastTierIndex ++ [updatedLastTier, newTier]) }

/-- `removeTier` of `PolicyTiersModal.jsx`; the returned `Bool` records
whether `onClose()` was invoked (the revert-to-flat branch). -/
def removeTier (p : ClassPolicy) (tierIndex : Nat) : ClassPolicy × Bool :=
  let currentTiers := p.tiers.getD []
  let removedTier := currentTiers.getD tierIndex ⟨none, none⟩
  let newTiers := (currentTiers.enum.filter (fun q => q.1 ≠ tierIndex)).map (·.2)
  if newTiers.length = 0 then
    ({ p with rate := some (jsOrQ removedTier.rate 0), tiers := some [] }, true)
  else
    let lastTierIndex := newTiers.length - 1
    let lastTier := newTiers.getD lastTierIndex ⟨none, none⟩
    ({ p with rate := none,
              tiers := some (newTiers.set lastTierIndex { lastTier with up_to := none }) }, false)

/-- A tier with an open upper bound (`up_to === null`). -/
def isUnbounded (t : Tier) : Bool :=
  t.up_to.isNone

/-- The list is ascending under the source's comparator. -/
def tiersSorted : List Tier → Bool
  | [] => true
  | [_] => true
  | a :: b :: rest => tierLE a b && tiersSorted (b :: rest)

/-- The tier invariant of the spec: at most one tier is unbounded, the list
is ascending by `up_to` with `null` sorted last, and every tier before the
last has a finite bound. -/
def tierInvariant (l : List Tier) : Prop :=
  l.countP isUnbounded ≤ 1 ∧ tiersSorted l = true ∧ ∀ t ∈ l.dropLast, t.up_to ≠ none

lemma jsOrInt_some_zero (x : Int) : jsOrInt (some x) 0 = x := by
  by_cases h : x = 0 <;> simp [jsOrInt, h]

lemma jsOrQ_some_self (r : ℚ) : jsOrQ (some r) 0 = r := by
  by_cases h : r = 0 <;> simp [jsOrQ, h]

instance (l : List Tier) : Decidable (tierInvariant l) :=
  inferInstanceAs (Decidable (l.countP isUnbounded ≤ 1 ∧ tiersSorted l = true ∧
    ∀ t ∈ l.dropLast, t.up_to ≠ none))

lemma tierLE_none_right {a b : Tier} (ha : a.up_to ≠ none) (hb : b.up_to = none) :
    tierLE a b = true := by
  rcases hx : a.up_to with _ | x
  · exact absurd hx ha
  · simp [tierLE, hx, hb]

lemma up_to_ne_none_of_tierLE {a b : Tier} (h : tierLE a b = true) : a.up_to ≠ none := by
  intro hn
  simp [tierLE, hn] at h

lemma tierLE_of_le {a b : Tier} {x y : Int} (hx : a.up_to = some x)
    (hy : b.up_to = some y) (h : x ≤ y) : tierLE a b = true := by
  simp [tierLE, hx, hy, h]

lemma tierLE_total {a b : Tier} (ha : a.up_to ≠ none) :
    tierLE a b = true ∨ tierLE b a = true := by
  rcases hx : a.up_to with _ | x
  · exact absurd hx ha
  · rcases hy : b.up_to with _ | y
    · exact Or.inl (by simp [tierLE, hx, hy])
    · rcases Int.le_total x y with h | h
      · exact Or.inl (by simp [tierLE, hx, hy, h])
      · exact Or.inr (by simp [tierLE, hx, hy, h])

@[simp] lemma tiersSorted_nil : tiersSorted [] = true := rfl

@[simp] lemma tiersSorted_singleton (a : Tier) : tiersSorted [a] = true := rfl

@[simp] lemma tiersSorted_cons_cons (a b : Tier) (l : List Tier) :
    tiersSorted (a :: b :: l) = (tierLE a b && tiersSorted (b :: l)) := rfl

@[simp] lemma sortTiers_nil : sortTiers [] = [] := rfl

@[simp] lemma sortTiers_cons (t : Tier) (ts : List Tier) :
    sortTiers (t :: ts) = insertTier t (sortTiers ts) := rfl

lemma countP_insertTier (p : Tier → Bool) (t : Tier) :
    ∀ l : List Tier, (insertTier t l).countP p = l.countP p + (if p t then 1 else 0)
  | [] => by simp [insertTier, List.countP_cons]
  | y :: ys => by
    by_cases h : tierLE t y = true
    · simp [insertTier, h, List.countP_cons]
    · simp [insertTier, h, List.countP_cons, countP_insertTier p t ys]
      omega

lemma length_insertTier (t : Tier) : ∀ l : List Tier, (insertTier t l).length = l.length + 1
  | [] => rfl
  | y :: ys => by
    by_cases h : tierLE t y = true
    · simp [insertTier, h]
    · simp [insertTier, h, length_insertTier t ys]

lemma countP_sortTiers (p : Tier → Bool) : ∀ l : List Tier, (sortTiers l).countP p = l.countP p
  | [] => rfl
  | t :: ts => by
    rw [sortTiers_cons, countP_insertTier, countP_sortTiers p ts, List.countP_cons]

lemma length_sortTiers : ∀ l : List Tier, (sortTiers l).length = l.length
  | [] => rfl
  | t :: ts => by rw [sortTiers_cons, length_insertTier, length_sortTiers ts, List.length_cons]

lemma insertTier_sorted (t : Tier) :
    ∀ l : List Tier, tiersSorted l = true →
      (∀ y ∈ l, tierLE t y = true ∨ tierLE y t = true) →
      tiersSorted (insertTier t l) = true := by
  intro l
  induction l with
  | nil => intro _ _; rfl
  | cons y ys ih =>
    intro hs htot
    by_cases hty : tierLE t y = true
    · simp only [insertTier, if_pos hty, tiersSorted_cons_cons, Bool.and_eq_true]
      exact ⟨hty, hs⟩
    · have hyt : tierLE y t = true :=
        (htot y (List.mem_cons_self y ys)).resolve_left hty
      simp only [insertTier, if_neg hty]
      cases ys with
      | nil => simp [tiersSorted, insertTier, hyt]
      | cons z zs =>
        have hs' : tierLE y z = true ∧ tiersSorted (z :: zs) = true := by
          rw [tiersSorted_cons_cons, Bool.and_eq_true] at hs
          exact hs
        have htot' : ∀ w ∈ z :: zs, tierLE t w = true ∨ tierLE w t = true :=
          fun w hw => htot w (List.mem_cons_of_mem y hw)
        have hins := ih hs'.2 htot'
        by_cases htz : tierLE t z = true
        · simp only [insertTier, if_pos htz] at hins ⊢
          simp only [tiersSorted_cons_cons, Bool.and_eq_true] at hins ⊢
          exact ⟨hyt, hins⟩
        · simp only [insertTier, if_neg htz] at hins ⊢
          simp only [tiersSorted_cons_cons, Bool.and_eq_true]
          exact ⟨hs'.1, hins⟩

lemma isUnbounded_eq_true_iff (t : Tier) : isUnbounded t = true ↔ t.up_to = none := by
  simp [isUnbounded, Option.isNone_iff_eq_none]

lemma sortTiers_sorted : ∀ l : List Tier, l.countP isUnbounded ≤ 1 →
    tiersSorted (sortTiers l) = true := by
  intro l
  induction l with
  | nil => intro _; rfl
  | cons t ts ih =>
    intro h
    rw [List.countP_cons] at h
    have hts : ts.countP isUnbounded ≤ 1 := by omega
    rw [sortTiers_cons]
    apply insertTier_sorted t (sortTiers ts) (ih hts)
    intro y hy
    by_cases ht : t.up_to = none
    · right
      have h1 : isUnbounded t = true := (isUnbounded_eq_true_iff t).mpr ht
      have hzero : ts.countP isUnbounded = 0 := by
        have hone : (if isUnbounded t = true then 1 else 0) = 1 := by simp [h1]
        rw [hone] at h
        omega
      have hzero' : (sortTiers ts).countP isUnbounded = 0 := by
        rw [countP_sortTiers]; exact hzero
      have hy' : ¬ isUnbounded y = true := List.countP_eq_zero.mp hzero' y hy
      have hyfin : y.up_to ≠ none := fun hn => hy' ((isUnbounded_eq_true_iff y).mpr hn)
      exact tierLE_none_right hyfin ht
    · exact tierLE_total ht

lemma noNull_dropLast : ∀ l : List Tier, tiersSorted l = true →
    ∀ t ∈ l.dropLast, t.up_to ≠ none
  | [], _ => by simp
  | [a], _ => by simp
  | a :: b :: rest, hs => by
    rw [tiersSorted_cons_cons, Bool.and_eq_true] at hs
    intro t ht
    rw [List.dropLast_cons₂] at ht
    rcases List.mem_cons.mp ht with h1 | h2
    · subst h1; exact up_to_ne_none_of_tierLE hs.1
    · exact noNull_dropLast (b :: rest) hs.2 t h2

lemma tiersSorted_append_left : ∀ xs ys : List Tier,
    tiersSorted (xs ++ ys) = true → tiersSorted xs = true
  | [], _, _ => rfl
  | [_], _, _ => rfl
  | a :: b :: rest, ys, h => by
    rw [List.cons_append, List.cons_append, tiersSorted_cons_cons, Bool.and_eq_true] at h
    rw [tiersSorted_cons_cons, Bool.and_eq_true]
    exact ⟨h.1, tiersSorted_append_left (b :: rest) ys (by rw [List.cons_append]; exact h.2)⟩

lemma tiersSorted_concat_two : ∀ (xs : List Tier) (a b : Tier), tiersSorted xs = true →
    (∀ x, xs.getLast? = some x → tierLE x a = true) → tierLE a b = true →
    tiersSorted (xs ++ [a, b]) = true
  | [], a, b, _, _, hab => by simp [tiersSorted, hab]
  | [x], a, b, _, hlast, hab => by
    have hxa := hlast x rfl
    simp [tiersSorted, hxa, hab]
  | x :: y :: rest, a, b, hxs, hlast, hab => by
    rw [tiersSorted_cons_cons, Bool.and_eq_true] at hxs
    have htail := tiersSorted_concat_two (y :: rest) a b hxs.2
      (fun z hz => hlast z (by rw [List.getLast?_cons_cons]; exact hz)) hab
    rw [List.cons_append, List.cons_append, tiersSorted_cons_cons, Bool.and_eq_true]
    exact ⟨hxs.1, by rw [← List.cons_append]; exact htail⟩

lemma countP_set_le (p : Tier → Bool) :
    ∀ (l : List Tier) (i : Nat) (t' : Tier), p t' = false →
      (l.set i t').countP p ≤ l.countP p
  | [], _, _, _ => by simp
  | a :: l, 0, t', h => by
    simp [List.countP_cons, h]
  | a :: l, i + 1, t', h => by
    simp only [List.set_cons_succ, List.countP_cons]
    have := countP_set_le p l i t' h
    omega

lemma countP_set_eq (p : Tier → Bool) :
    ∀ (l : List Tier) (i : Nat) (t' : Tier),
      (∀ h : i < l.length, p t' = p l[i]) →
      (l.set i t').countP p = l.countP p
  | [], _, _, _ => by simp
  | a :: l, 0, t', h => by
    have := h (by simp)
    simp only [List.set_cons_zero, List.countP_cons, List.getElem_cons_zero] at this ⊢
    rw [this]
  | a :: l, i + 1, t', h => by
    simp only [List.set_cons_succ, List.countP_cons]
    rw [countP_set_eq p l i t' (fun hi => by
      have := h (by simpa using Nat.succ_lt_succ hi)
      simpa using this)]

lemma addTier_eq_concat (p : ClassPolicy) (xs : List Tier) (a : Tier)
    (hne : (p.tiers.getD []).length ≠ 0)
    (hcat : sortTiers (p.tiers.getD []) = xs ++ [a]) :
    addTier p = { p with
                  rate := none,
                  tiers := some (xs ++
                    [{ a with up_to := some (jsOrInt
                        (if 0 < xs.length then
                          ((xs ++ [a]).getD (xs.length - 1) ⟨none, none⟩).up_to
                         else some 0) 0 + 1000000) },
                     { rate := a.rate, up_to := none }]) } := by
  have hlen : (xs ++ [a]).length - 1 = xs.length := by simp
  have hgetlast : (xs ++ [a]).getD xs.length ⟨none, none⟩ = a := by
    rw [List.getD_append_right _ _ _ _ (le_refl xs.length)]
    simp
  have htake : (xs ++ [a]).take xs.length = xs := List.take_left xs [a]
  simp only [addTier, if_neg hne, hcat, hlen, hgetlast, htake]

/-- C1: starting from tier lists satisfying the tier invariant, both the
tier-field edit operation (`handleTierChange`'s list transformation) and
`addTier` produce a tier list in which at most one tier has `up_to = null`
and that tier is last in ascending `up_to` order. -/
theorem tierInvariant_after_edit_or_add (tiers : List Tier) (i : Nat) (e : FieldEdit)
    (p : ClassPolicy) (h1 : tierInvariant tiers) (h2 : tierInvariant (p.tiers.getD [])) :
    tierInvariant (changeTierFieldList tiers i e) ∧
    tierInvariant ((addTier p).tiers.getD []) := by
  obtain ⟨hc, hs, -⟩ := h1
  constructor
  · unfold changeTierFieldList
    have hcount : (tiers.set i (setTierField (tiers.getD i ⟨none, none⟩) e)).countP isUnbounded ≤ 1 := by
      cases e with
      | up_to v =>
        have hfalse : isUnbounded (setTierField (tiers.getD i ⟨none, none⟩) (.up_to v)) = false := by
          simp [setTierField, isUnbounded]
        exact le_trans (countP_set_le isUnbounded tiers i _ hfalse) hc
      | rate v =>
        have heq : ∀ h : i < tiers.length,
            isUnbounded (setTierField (tiers.getD i ⟨none, none⟩) (.rate v)) =
            isUnbounded tiers[i] := by
          intro h
          rw [List.getD_eq_getElem tiers _ h]
          rfl
        rw [countP_set_eq isUnbounded tiers i _ heq]
        exact hc
    have hsorted := sortTiers_sorted _ hcount
    exact ⟨by rw [countP_sortTiers]; exact hcount, hsorted, noNull_dropLast _ hsorted⟩
  · obtain ⟨hc2, -, -⟩ := h2
    rcases hl : p.tiers.getD [] with _ | ⟨t0, ts0⟩
    · have hflat : addTier p = { p with
          rate := none,
          tiers := some [⟨some (jsOrQ p.rate 10), none⟩] } := by
        simp [addTier, hl]
      rw [hflat]
      refine ⟨?_, ?_, ?_⟩ <;> simp [isUnbounded, List.countP_cons]
    · have hne : (p.tiers.getD []).length ≠ 0 := by rw [hl]; simp
      have hsorted : tiersSorted (sortTiers (p.tiers.getD [])) = true := sortTiers_sorted _ hc2
      have hslen : (sortTiers (p.tiers.getD [])).length ≠ 0 := by
        rw [length_sortTiers]; exact hne
      rcases List.eq_nil_or_concat (sortTiers (p.tiers.getD [])) with hnil | ⟨xs, a, hcat⟩
      · rw [hnil] at hslen; simp at hslen
      · rw [List.concat_eq_append] at hcat
        rw [addTier_eq_concat p xs a hne hcat]
        have hxsfin : ∀ t ∈ xs, t.up_to ≠ none := by
          have hdl : (sortTiers (p.tiers.getD [])).dropLast = xs := by
            rw [hcat, List.dropLast_concat]
          intro t htmem
          exact noNull_dropLast _ hsorted t (by rw [hdl]; exact htmem)
        have hxscount : xs.countP isUnbounded = 0 :=
          List.countP_eq_zero.mpr (fun t htmem hc' =>
            hxsfin t htmem ((isUnbounded_eq_true_iff t).mp hc'))
        show tierInvariant (xs ++
          [{ a with up_to := some (jsOrInt
              (if 0 < xs.length then ((xs ++ [a]).getD (xs.length - 1) ⟨none, none⟩).up_to
               else some 0) 0 + 1000000) },
           { rate := a.rate, up_to := none }])
        set updA : Tier := { a with up_to := some (jsOrInt
            (if 0 < xs.length then ((xs ++ [a]).getD (xs.length - 1) ⟨none, none⟩).up_to
             else some 0) 0 + 1000000) } with hupdA
        set newT : Tier := { rate := a.rate, up_to := none } with hnewT
        refine ⟨?_, ?_, ?_⟩
        · rw [List.countP_append, hxscount, List.countP_cons, List.countP_cons]
          simp [hupdA, hnewT, isUnbounded]
        · apply tiersSorted_concat_two xs updA newT
          · exact tiersSorted_append_left xs [a] (by rw [← hcat]; exact hsorted)
          · intro x hx
            rcases List.eq_nil_or_concat xs with hxnil | ⟨ys, b, hxcat⟩
            · rw [hxnil] at hx; simp at hx
            · rw [List.concat_eq_append] at hxcat
              rw [hxcat, List.getLast?_concat] at hx
              injection hx with hxb
              subst hxb
              have hpos : 0 < xs.length := by rw [hxcat]; simp
              have hlt : xs.length - 1 < xs.length := by omega
              have hg1 : (xs ++ [a]).getD (xs.length - 1) ⟨none, none⟩ =
                  xs.getD (xs.length - 1) ⟨none, none⟩ :=
                List.getD_append _ _ _ _ hlt
              have hg2 : xs.getD (xs.length - 1) ⟨none, none⟩ = b := by
                rw [hxcat]
                have hy : (ys ++ [b]).length - 1 = ys.length := by simp
                rw [hy, List.getD_append_right _ _ _ _ (le_refl ys.length)]
                simp
              have hbfin : b.up_to ≠ none := hxsfin b (by rw [hxcat]; simp)
              rcases hbv : b.up_to with _ | v
              · exact absurd hbv hbfin
              · have hupv : updA.up_to = some (v + 1000000) := by
                  rw [hupdA]
                  simp only [if_pos hpos, hg1, hg2, hbv, jsOrInt_some_zero]
                exact tierLE_of_le hbv hupv (by omega)
          · simp [tierLE, hupdA, hnewT]
        · have hdl2 : (xs ++ [updA, newT]).dropLast = xs ++ [updA] := by
            have hsplit : xs ++ [updA, newT] = (xs ++ [updA]) ++ [newT] := by simp
            rw [hsplit, List.dropLast_concat]
          rw [hdl2]
          intro t htmem
          rcases List.mem_append.mp htmem with hmem | hmem
          · exact hxsfin t hmem
          · simp only [List.mem_singleton] at hmem
            subst hmem
            simp [hupdA]

/-- Witness for C1 at a concrete two-tier list and policy. -/
theorem tierInvariant_after_edit_or_add_witness :
    tierInvariant (changeTierFieldList [⟨some 5, some 500000⟩, ⟨some 7, none⟩] 0
      (.up_to (some 600000))) ∧
    tierInvariant ((addTier ⟨none, some [⟨some 5, some 500000⟩, ⟨some 7, none⟩]⟩).tiers.getD []) :=
  tierInvariant_after_edit_or_add _ 0 _ _ (by decide) (by decide)

/-- C2 counterexample: on the Flat policy `{ rate: 0 }`, `addTier` produces the
tier `{ rate: 10, up_to: null }` (`policy.rate || 10` treats the rate 0 as
falsy), not the tier `{ rate: 0, up_to: null }` that the claim requires. -/
theorem addTier_flat_rate_zero_cex :
    (addTier ⟨some 0, none⟩).tiers ≠ some [⟨some 0, none⟩] ∧
    (addTier ⟨some 0, none⟩).tiers = some [⟨some 10, none⟩] := by
  constructor <;> decide

/-- C2 amended: `addTier` on a Flat (or zero-tier) policy yields a Tiered
policy with exactly one tier `{ rate: policy.rate || 10, up_to: null }` and
clears the flat rate field; the single tier's rate equals the flat rate R
whenever R is present and nonzero, and is the default 10 when the flat rate
is absent or 0. -/
theorem addTier_flat (p : ClassPolicy) (h : p.tiers = none ∨ p.tiers = some []) :
    addTier p = { p with
      rate := none,
      tiers := some [⟨some (jsOrQ p.rate 10), none⟩] } ∧
    (∀ r : ℚ, p.rate = some r → r ≠ 0 → jsOrQ p.rate 10 = r) ∧
    (p.rate = none ∨ p.rate = some 0 → jsOrQ p.rate 10 = 10) := by
  refine ⟨?_, ?_, ?_⟩
  · rcases h with h | h <;> simp [addTier, h]
  · intro r hr hne
    simp [jsOrQ, hr, hne]
  · intro h0
    rcases h0 with h0 | h0 <;> simp [jsOrQ, h0]

/-- Witness for C2 (amended) on both the nonzero-rate and the zero-rate branch. -/
theorem addTier_flat_witness :
    addTier ⟨some 5, none⟩ = ⟨none, some [⟨some 5, none⟩]⟩ ∧
    addTier ⟨some 0, some []⟩ = ⟨none, some [⟨some 10, none⟩]⟩ := by
  constructor
  · rw [(addTier_flat ⟨some 5, none⟩ (Or.inl rfl)).1]
    decide
  · rw [(addTier_flat ⟨some 0, some []⟩ (Or.inr rfl)).1]
    decide

lemma enumFrom_filter_map : ∀ (l : List Tier) (n i : Nat),
    ((List.enumFrom n l).filter (fun q => q.1 ≠ i)).map (·.2) =
      if i < n then l else l.eraseIdx (i - n)
  | [], n, i => by
    simp [List.enumFrom, List.eraseIdx_nil]
  | a :: l, n, i => by
    rw [List.enumFrom_cons, List.filter_cons]
    by_cases h : n = i
    · subst h
      rw [if_neg (by simp)]
      rw [enumFrom_filter_map l (n + 1) n, if_pos (by omega), if_neg (by omega),
        Nat.sub_self, List.eraseIdx_cons_zero]
    · rw [if_pos (by simp [h]), List.map_cons, enumFrom_filter_map l (n + 1) i]
      by_cases h2 : i < n
      · rw [if_pos (by omega), if_pos h2]
      · rw [if_neg (by omega), if_neg h2]
        have hsub : i - n = (i - (n + 1)) + 1 := by omega
        rw [hsub, List.eraseIdx_cons_succ]

lemma removeTier_newTiers (l : List Tier) (i : Nat) :
    (l.enum.filter (fun q => q.1 ≠ i)).map (·.2) = l.eraseIdx i := by
  have h := enumFrom_filter_map l 0 i
  rw [if_neg (by omega)] at h
  rw [Nat.sub_zero] at h
  exact h

lemma getD_set_ne {l : List Tier} {k j : Nat} (h : k ≠ j) (hj : j < l.length) (a d : Tier) :
    (l.set k a).getD j d = l.getD j d := by
  have hj' : j < (l.set k a).length := by rw [List.length_set]; exact hj
  rw [List.getD_eq_getElem _ _ hj', List.getD_eq_getElem _ _ hj]
  exact List.getElem_set_ne h hj'

/-- C3: `removeTier` removes the tier at the given index; if no tiers remain
the policy reverts to Flat with the removed tier's rate (or 0 when that rate
is absent) and the modal is closed; otherwise the surviving tiers keep their
values except that the new last tier's `up_to` is forced to `null`. -/
theorem removeTier_spec (p : ClassPolicy) (tiers : List Tier) (i : Nat)
    (htiers : p.tiers = some tiers) (hi : i < tiers.length) :
    (tiers.eraseIdx i = [] →
      removeTier p i =
        ({ p with
           rate := some (jsOrQ (tiers.getD i ⟨none, none⟩).rate 0),
           tiers := some [] }, true)) ∧
    ((tiers.getD i ⟨none, none⟩).rate = none → jsOrQ (tiers.getD i ⟨none, none⟩).rate 0 = 0) ∧
    (∀ r : ℚ, (tiers.getD i ⟨none, none⟩).rate = some r →
      jsOrQ (tiers.getD i ⟨none, none⟩).rate 0 = r) ∧
    (tiers.eraseIdx i ≠ [] →
      removeTier p i =
        ({ p with
           rate := none,
           tiers := some ((tiers.eraseIdx i).set ((tiers.eraseIdx i).length - 1)
             { (tiers.eraseIdx i).getD ((tiers.eraseIdx i).length - 1) ⟨none, none⟩ with
               up_to := none }) }, false) ∧
      (∀ j, j + 1 < (tiers.eraseIdx i).length →
        ((removeTier p i).1.tiers.getD []).getD j ⟨none, none⟩ =
          (tiers.eraseIdx i).getD j ⟨none, none⟩) ∧
      (((removeTier p i).1.tiers.getD []).getD ((tiers.eraseIdx i).length - 1)
        ⟨none, none⟩).up_to = none ∧
      (((removeTier p i).1.tiers.getD []).getD ((tiers.eraseIdx i).length - 1)
        ⟨none, none⟩).rate =
        ((tiers.eraseIdx i).getD ((tiers.eraseIdx i).length - 1) ⟨none, none⟩).rate) := by
  have hrm : removeTier p i =
      (if (tiers.eraseIdx i).length = 0 then
        ({ p with
           rate := some (jsOrQ (tiers.getD i ⟨none, none⟩).rate 0),
           tiers := some [] }, true)
       else
        ({ p with
           rate := none,
           tiers := some ((tiers.eraseIdx i).set ((tiers.eraseIdx i).length - 1)
             { (tiers.eraseIdx i).getD ((tiers.eraseIdx i).length - 1) ⟨none, none⟩ with
               up_to := none }) }, false)) := by
    simp only [removeTier, htiers, Option.getD_some, removeTier_newTiers]
  refine ⟨?_, ?_, ?_, ?_⟩
  · intro hrest
    rw [hrm, if_pos (by rw [hrest]; rfl)]
  · intro hnone
    rw [hnone]
    rfl
  · intro r hr
    rw [hr, jsOrQ_some_self]
  · intro hrest
    have hlen : (tiers.eraseIdx i).length ≠ 0 := fun h0 =>
      hrest (List.length_eq_zero.mp h0)
    have heq : removeTier p i =
        ({ p with
           rate := none,
           tiers := some ((tiers.eraseIdx i).set ((tiers.eraseIdx i).length - 1)
             { (tiers.eraseIdx i).getD ((tiers.eraseIdx i).length - 1) ⟨none, none⟩ with
               up_to := none }) }, false) := by
      rw [hrm, if_neg hlen]
    refine ⟨heq, ?_, ?_, ?_⟩
    · intro j hj
      rw [heq]
      simp only [Option.getD_some]
      exact getD_set_ne (by omega) (by omega) _ _
    · rw [heq]
      simp only [Option.getD_some]
      have hlt : (tiers.eraseIdx i).length - 1 <
          ((tiers.eraseIdx i).set ((tiers.eraseIdx i).length - 1)
            { (tiers.eraseIdx i).getD ((tiers.eraseIdx i).length - 1) ⟨none, none⟩ with
              up_to := none }).length := by
        rw [List.length_set]; omega
      rw [List.getD_eq_getElem _ _ hlt, List.getElem_set_self]
    · rw [heq]
      simp only [Option.getD_some]
      have hlt : (tiers.eraseIdx i).length - 1 <
          ((tiers.eraseIdx i).set ((tiers.eraseIdx i).length - 1)
            { (tiers.eraseIdx i).getD ((tiers.eraseIdx i).length - 1) ⟨none, none⟩ with
              up_to := none }).length := by
        rw [List.length_set]; omega
      rw [List.getD_eq_getElem _ _ hlt, List.getElem_set_self]

/-- Witness for C3 on a two-tier removal (non-empty remainder) and on a
single-tier removal (revert to Flat). -/
theorem removeTier_spec_witness :
    removeTier ⟨none, some [⟨some 3, none⟩]⟩ 0 = (⟨some 3, some []⟩, true) ∧
    removeTier ⟨none, some [⟨some 5, some 100⟩, ⟨some 7, none⟩]⟩ 1 =
      (⟨none, some [⟨some 5, none⟩]⟩, false) := by
  constructor
  · rw [(removeTier_spec ⟨none, some [⟨some 3, none⟩]⟩ [⟨some 3, none⟩] 0 rfl
      (by decide)).1 (by decide)]
    decide
  · rw [((removeTier_spec ⟨none, some [⟨some 5, some 100⟩, ⟨some 7, none⟩]⟩
      [⟨some 5, some 100⟩, ⟨some 7, none⟩] 1 rfl (by decide)).2.2.2 (by decide)).1]
    decide

/-- C4: on the spec's concrete example, the previously unbounded tier gets the
finite bound 500000 + 1000000 = 1500000 and a new unbounded tier inheriting
rate 7 is appended. -/
theorem addTier_example :
    addTier ⟨none, some [⟨some 5, some 500000⟩, ⟨some 7, none⟩]⟩ =
      ⟨none, some [⟨some 5, some 500000⟩, ⟨some 7, some 1500000⟩, ⟨some 7, none⟩]⟩ := by
  decide

/-! ## The forecast store (`frontend/src/store/forecastSlice.js`) -/

/-- A parsed JSON value, as produced by `response.json()` / `JSON.parse`. -/
inductive JValue where
  | null
  | bool (b : Bool)
  | num (q : ℚ)
  | str (s : String)
  | arr (xs : List JValue)
  | obj (fields : List (String × JValue))

/-- JS truthiness of a JSON value: `null`, `false`, `0` and `""` are falsy;
arrays and objects are always truthy. -/
def jsTruthy : JValue → Bool
  | .null => false
  | .bool b => b
  | .num q => decide (q ≠ 0)
  | .str s => decide (s ≠ "")
  | .arr _ => true
  | .obj _ => true

/-- JS property access `v.key` on a parsed JSON value; `undefined` (absent
key or non-object receiver) is modelled as `null`, which has the same
truthiness. -/
def jsGet (v : JValue) (k : String) : JValue :=
  match v with
  | .obj fields => (fields.lookup k).getD .null
  | _ => .null

/-- JS `String(v)` for a JSON value, as used by `new Error(detail)` when the
server's `detail` field is not a string. String details pass through
unchanged; non-integer numbers cannot be rendered exactly like JS floats and
are approximated (no claim depends on them). -/
def jsValueToString : JValue → String
  | .null => "null"
  | .bool true => "true"
  | .bool false => "false"
  | .num q => if q.den = 1 then toString q.num else toString q
  | .str s => s
  | .arr xs => String.intercalate "," (xs.attach.map (fun x => jsValueToString x.1))
  | .obj _ => "[object Object]"
termination_by v => sizeOf v
decreasing_by
  simp_wf
  have := List.sizeOf_lt_of_mem x.2
  omega

/-- The per-class policy map held in `state.policy` (a JS object keyed by
tax-class name). -/
def PolicyMap : Type := String → Option ClassPolicy

/-- The `status` field: 'idle' | 'loading' | 'succeeded' | 'failed'. -/
inductive Status where
  | idle
  | loading
  | succeeded
  | failed
deriving DecidableEq, Repr

/-- `localStorage`: a string-keyed map of strings. -/
def LocalStorage : Type := String → Option String

/-- `localStorage.setItem`. -/
def setItem (ls : LocalStorage) (k v : String) : LocalStorage :=
  fun k' => if k' = k then some v else ls k'

/-- `localStorage.getItem` (returns `null` for an absent key). -/
def getItem (ls : LocalStorage) (k : String) : Option String :=
  ls k

/-- The single durable storage key used by the slice. -/
def storageKey : String := "mauiForecastPolicy"

/-- `savePolicyToStorage`: serialize and write under `storageKey`.
`JSON.stringify` is a platform built-in, passed in as `encode`; the
source's try/catch only swallows storage-write failures, which the spec's
round-trip claim explicitly assumes away. -/
def savePolicyToStorage (encode : PolicyMap → String) (ls : LocalStorage)
    (policy : PolicyMap) : LocalStorage :=
  setItem ls storageKey (encode policy)

/-- `loadPolicyFromStorage`: read `storageKey` and parse; an absent key or a
parse failure (the catch branch) yields `null`. `JSON.parse` is a platform
built-in, passed in as `decode`, with `none` modelling a thrown parse error. -/
def loadPolicyFromStorage (decode : String → Option PolicyMap)
    (ls : LocalStorage) : Option PolicyMap :=
  match getItem ls storageKey with
  | none => none
  | some s => decode s

/-- The slice state (`initialState` field set). -/
structure ForecastState where
  policy : Option PolicyMap
  defaultPolicy : Option PolicyMap
  appeals : String → Option ℚ
  exemptions : JValue
  results : Option JValue
  tierCounts : Option JValue
  status : Status
  error : Option String

/-- The `updatePolicy` reducer together with its persistence side effect:
guarded by `if (state.policy)`, it replaces the single class entry and
saves the whole policy to storage. -/
def updatePolicyReducer (encode : PolicyMap → String) (s : ForecastState)
    (ls : LocalStorage) (className : String) (policy : ClassPolicy) :
    ForecastState × LocalStorage :=
  match s.policy with
  | none => (s, ls)
  | some m =>
    let m' : PolicyMap := fun c => if c = className then some policy else m c
    ({ s with policy := some m' }, savePolicyToStorage encode ls m')

/-- The `updateAppeal` reducer: sets a single entry of `appeals`. -/
def updateAppealReducer (s : ForecastState) (className : String) (value : ℚ) :
    ForecastState :=
  { s with appeals := fun c => if c = className then some value else s.appeals c }

/-- `fetchDefaultPolicy.pending`. -/
def fetchDefaultPolicyPending (s : ForecastState) : ForecastState :=
  { s with status := .loading }

/-- `fetchDefaultPolicy.fulfilled`: store the default and seed `policy`
only when it is strictly `null`. -/
def fetchDefaultPolicyFulfilled (s : ForecastState) (payload : PolicyMap) :
    ForecastState :=
  let s1 := { s with status := .succeeded, defaultPolicy := some payload }
  match s.policy with
  | none => { s1 with policy := some payload }
  | some _ => s1

/-- `fetchDefaultPolicy.rejected`. -/
def fetchDefaultPolicyRejected (s : ForecastState) (msg : String) : ForecastState :=
  { s with status := .failed, error := some msg }

/-- The payload of `/api/appeals-and-exemptions`. -/
structure DefaultsPayload where
  appeals : String → Option ℚ
  exemptions : JValue

/-- `fetchDefaults.pending`. -/
def fetchDefaultsPending (s : ForecastState) : ForecastState :=
  { s with status := .loading }

/-- `fetchDefaults.fulfilled`: replace both maps wholesale. -/
def fetchDefaultsFulfilled (s : ForecastState) (payload : DefaultsPayload) :
    ForecastState :=
  { s with status := .succeeded, appeals := payload.appeals,
           exemptions := payload.exemptions }

/-- `fetchDefaults.rejected`. -/
def fetchDefaultsRejected (s : ForecastState) (msg : String) : ForecastState :=
  { s with status := .failed, error := some msg }

/-- `calculateForecast.pending`: sets loading and clears the previous error. -/
def calculateForecastPending (s : ForecastState) : ForecastState :=
  { s with status := .loading, error := none }

/-- `calculateForecast.fulfilled`. -/
def calculateForecastFulfilled (s : ForecastState) (payload : JValue) :
    ForecastState :=
  { s with status := .succeeded, results := some payload }

/-- `calculateForecast.rejected`: `error = action.error.message`. -/
def calculateForecastRejected (s : ForecastState) (msg : String) : ForecastState :=
  { s with status := .failed, error := some msg }

/-- `fetchTierParcelCounts.pending`: deliberately does not touch `status`. -/
def fetchTierParcelCountsPending (s : ForecastState) : ForecastState :=
  s

/-- `fetchTierParcelCounts.fulfilled`. -/
def fetchTierParcelCountsFulfilled (s : ForecastState) (payload : JValue) :
    ForecastState :=
  { s with tierCounts := some payload }

/-- `fetchTierParcelCounts.rejected`: resets `tierCounts` only. -/
def fetchTierParcelCountsRejected (s : ForecastState) : ForecastState :=
  { s with tierCounts := none }

/-- An HTTP response as the thunk bodies observe it: `ok` is the 2xx flag
and `body` the result of attempting `await response.json()` (`none` when the
body is empty or not parseable JSON). -/
structure HttpResponse where
  ok : Bool
  body : Option JValue

/-- The generic fallback message of `calculateForecast`. -/
def serverErrMsg : String := "Calculation failed on the server."

/-- Message of the `SyntaxError` thrown when `response.json()` fails on a
2xx response (engine dependent; no claim depends on its text). -/
def jsonSyntaxErrMsg : String := "Unexpected end of JSON input"

/-- The error message computed by `calculateForecast`'s non-ok branch:
start from the generic message; if the body parsed and
`errorData && errorData.detail` is truthy, use `String(errorData.detail)`. -/
def forecastErrorDetail (body : Option JValue) : String :=
  match body with
  | none => serverErrMsg
  | some v =>
    if jsTruthy v && jsTruthy (jsGet v "detail") then jsValueToString (jsGet v "detail")
    else serverErrMsg

/-- The outcome of the `calculateForecast` thunk body for a given response:
`ok` resolves with the parsed body, non-`ok` rejects with the detail-or-
generic message. -/
def calculateForecastThunk (resp : HttpResponse) : Except String JValue :=
  if resp.ok then
    match resp.body with
    | some v => .ok v
    | none => .error jsonSyntaxErrMsg
  else
    .error (forecastErrorDetail resp.body)

/-- One complete `calculateForecast` attempt: the pending reducer fires at
dispatch, then the fulfilled or rejected reducer fires with the thunk's
outcome. -/
def calculateForecastStep (s : ForecastState) (resp : HttpResponse) : ForecastState :=
  match calculateForecastThunk resp with
  | .ok v => calculateForecastFulfilled (calculateForecastPending s) v
  | .error m => calculateForecastRejected (calculateForecastPending s) m

/-- A convenient concrete state: the slice's initial state with no persisted
policy (`loadPolicyFromStorage` returned `null`). -/
def emptyState : ForecastState where
  policy := none
  defaultPolicy := none
  appeals := fun _ => none
  exemptions := .obj []
  results := none
  tierCounts := none
  status := .idle
  error := none

/-- A concrete state whose `policy` is present (an empty class map). -/
def stateWithPolicy : ForecastState :=
  { emptyState with policy := some (fun _ => none) }

/-- C5: `persistPolicy` then `loadPersistedPolicy` returns the stored policy
unchanged. `JSON.stringify`/`JSON.parse` are platform built-ins (not
repository code) passed as `encode`/`decode`; the hypothesis is exactly the
ECMA-262 round-trip guarantee the claim assumes for JSON-serializable
policies, plus the claim's own assumption that the storage write succeeds.
The repository-level content is that both helpers use the same single key
and apply no other transformation. -/
theorem persist_roundtrip (encode : PolicyMap → String)
    (decode : String → Option PolicyMap) (ls : LocalStorage) (p : PolicyMap)
    (h : decode (encode p) = some p) :
    loadPolicyFromStorage decode (savePolicyToStorage encode ls p) = some p := by
  unfold loadPolicyFromStorage savePolicyToStorage getItem setItem
  simp [h]

def rtPolicy : PolicyMap := fun _ => none

def rtEncode : PolicyMap → String := fun _ => "policy"

def rtDecode : String → Option PolicyMap :=
  fun s => if s = "policy" then some rtPolicy else none

/-- Witness for C5 with a concrete encoder/decoder pair satisfying the
round-trip contract on a concrete policy. -/
theorem persist_roundtrip_witness :
    loadPolicyFromStorage rtDecode
      (savePolicyToStorage rtEncode (fun _ => none) rtPolicy) = some rtPolicy :=
  persist_roundtrip rtEncode rtDecode (fun _ => none) rtPolicy (by simp [rtDecode, rtEncode])

/-- C6: `updatePolicy` on an absent policy is a no-op (state and storage
untouched, no exception is possible in the total model); on a present policy
it replaces exactly the entry for the given class, leaves every other class
entry and every other state field unchanged, and persists the whole updated
policy under the storage key. -/
theorem updatePolicy_spec (encode : PolicyMap → String) (s : ForecastState)
    (ls : LocalStorage) (c : String) (cp : ClassPolicy) :
    (s.policy = none → updatePolicyReducer encode s ls c cp = (s, ls)) ∧
    (∀ m, s.policy = some m →
      updatePolicyReducer encode s ls c cp =
        ({ s with policy := some (fun c' => if c' = c then some cp else m c') },
         setItem ls storageKey (encode (fun c' => if c' = c then some cp else m c'))) ∧
      (∀ c', c' ≠ c → (fun c' => if c' = c then some cp else m c') c' = m c') ∧
      (fun c' => if c' = c then some cp else m c') c = some cp) := by
  constructor
  · intro h
    unfold updatePolicyReducer
    rw [h]
  · intro m hm
    refine ⟨?_, ?_, ?_⟩
    · unfold updatePolicyReducer savePolicyToStorage
      rw [hm]
    · intro c' hc'
      simp [hc']
    · simp

/-- Witness for C6 on a no-policy state and on a state with a policy. -/
theorem updatePolicy_spec_witness :
    updatePolicyReducer (fun _ => "enc") emptyState (fun _ => none) "Residential"
      ⟨some 5, none⟩ = (emptyState, fun _ => none) ∧
    updatePolicyReducer (fun _ => "enc") stateWithPolicy (fun _ => none) "Residential"
      ⟨some 5, none⟩ =
      ({ stateWithPolicy with
         policy := some (fun c' => if c' = "Residential" then some ⟨some 5, none⟩ else none) },
       setItem (fun _ => none) storageKey "enc") := by
  constructor
  · exact (updatePolicy_spec (fun _ => "enc") emptyState (fun _ => none) "Residential"
      ⟨some 5, none⟩).1 rfl
  · exact ((updatePolicy_spec (fun _ => "enc") stateWithPolicy (fun _ => none) "Residential"
      ⟨some 5, none⟩).2 (fun _ => none) rfl).1

/-- C7 counterexample: a non-2xx response whose JSON body is
`{"detail": ""}` contains a (empty) detail string, but
`errorData && errorData.detail` is falsy on `""`, so the stored error is the
generic fallback and not the detail string, contradicting the claim as
stated. -/
theorem calculateForecast_empty_detail_cex :
    (calculateForecastStep emptyState
      ⟨false, some (.obj [("detail", .str "")])⟩).error ≠ some "" ∧
    (calculateForecastStep emptyState
      ⟨false, some (.obj [("detail", .str "")])⟩).error = some serverErrMsg := by
  constructor <;> decide

/-- C7 amended: an attempt clears the previous error at start; a non-2xx
completion whose JSON body carries a truthy (in particular non-empty) detail
string sets status=failed and error to that string; a non-2xx completion
with an unparseable/empty body, or with a falsy `detail` (absent, `""`, `0`,
`null`, `false`), sets status=failed and the generic fallback message. -/
theorem calculateForecast_error_spec (s : ForecastState) (resp : HttpResponse)
    (v : JValue) (d : String) :
    ((calculateForecastPending s).error = none ∧
     (calculateForecastPending s).status = .loading) ∧
    (resp.ok = false → resp.body = some v → jsTruthy v = true →
      jsGet v "detail" = .str d → d ≠ "" →
      (calculateForecastStep s resp).status = .failed ∧
      (calculateForecastStep s resp).error = some d) ∧
    (resp.ok = false → resp.body = none →
      (calculateForecastStep s resp).status = .failed ∧
      (calculateForecastStep s resp).error = some serverErrMsg) ∧
    (resp.ok = false → resp.body = some v → jsTruthy (jsGet v "detail") = false →
      (calculateForecastStep s resp).status = .failed ∧
      (calculateForecastStep s resp).error = some serverErrMsg) := by
  have hstep : resp.ok = false → calculateForecastStep s resp =
      calculateForecastRejected (calculateForecastPending s)
        (forecastErrorDetail resp.body) := by
    intro hok
    simp [calculateForecastStep, calculateForecastThunk, hok]
  refine ⟨⟨rfl, rfl⟩, ?_, ?_, ?_⟩
  · intro hok hbody htv hdet hne
    have hd : forecastErrorDetail resp.body = d := by
      rw [hbody]
      have ht : jsTruthy (JValue.str d) = true := by simp [jsTruthy, hne]
      simp [forecastErrorDetail, htv, hdet, ht, jsValueToString]
    rw [hstep hok, hd]
    exact ⟨rfl, rfl⟩
  · intro hok hbody
    have hd : forecastErrorDetail resp.body = serverErrMsg := by
      rw [hbody]
      rfl
    rw [hstep hok, hd]
    exact ⟨rfl, rfl⟩
  · intro hok hbody hfalsy
    have hd : forecastErrorDetail resp.body = serverErrMsg := by
      rw [hbody]
      unfold forecastErrorDetail
      simp [hfalsy]
    rw [hstep hok, hd]
    exact ⟨rfl, rfl⟩

/-- Witness for C7 (amended): the spec's own examples — body
`{"detail":"bad policy"}` surfaces the detail, an empty body and a body
without a truthy detail fall back to the generic message. -/
theorem calculateForecast_error_spec_witness :
    ((calculateForecastStep emptyState
        ⟨false, some (.obj [("detail", .str "bad policy")])⟩).error = some "bad policy") ∧
    ((calculateForecastStep emptyState ⟨false, none⟩).error = some serverErrMsg) ∧
    ((calculateForecastStep emptyState ⟨false, some (.obj [])⟩).error = some serverErrMsg) := by
  refine ⟨?_, ?_, ?_⟩
  · exact ((calculateForecast_error_spec emptyState _ (.obj [("detail", .str "bad policy")])
      "bad policy").2.1 rfl rfl rfl rfl (by decide)).2
  · exact ((calculateForecast_error_spec emptyState _ .null "").2.2.1 rfl rfl).2
  · exact ((calculateForecast_error_spec emptyState _ (.obj []) "").2.2.2 rfl rfl rfl).2

/-- C8: the tier-parcel-count reducers touch only `tierCounts` — success
stores the response, rejection resets it to absent, pending is the identity;
`status` and `error` are untouched in all three transitions. -/
theorem fetchTierParcelCounts_spec (s : ForecastState) (v : JValue) :
    fetchTierParcelCountsPending s = s ∧
    fetchTierParcelCountsFulfilled s v = { s with tierCounts := some v } ∧
    (fetchTierParcelCountsFulfilled s v).status = s.status ∧
    (fetchTierParcelCountsFulfilled s v).error = s.error ∧
    fetchTierParcelCountsRejected s = { s with tierCounts := none } ∧
    (fetchTierParcelCountsRejected s).status = s.status ∧
    (fetchTierParcelCountsRejected s).error = s.error :=
  ⟨rfl, rfl, rfl, rfl, rfl, rfl, rfl⟩

lemma fetchDefaultPolicyFulfilled_eq (s : ForecastState) (v : PolicyMap) :
    fetchDefaultPolicyFulfilled s v =
      { s with status := .succeeded, defaultPolicy := some v,
               policy := some (s.policy.getD v) } := by
  unfold fetchDefaultPolicyFulfilled
  rcases hs : s.policy with _ | m <;> simp [hs]

/-- C9: a successful `fetchDefaultPolicy` stores the payload in
`defaultPolicy` and seeds `policy` with it only when `policy` was absent,
never overwriting a present policy; a failed one sets status=failed with the
message and leaves `policy` and `defaultPolicy` unchanged. -/
theorem fetchDefaultPolicy_spec (s : ForecastState) (v : PolicyMap) (msg : String) :
    ((fetchDefaultPolicyFulfilled s v).status = .succeeded ∧
     (fetchDefaultPolicyFulfilled s v).defaultPolicy = some v ∧
     (s.policy = none → (fetchDefaultPolicyFulfilled s v).policy = some v) ∧
     (∀ m, s.policy = some m → (fetchDefaultPolicyFulfilled s v).policy = some m) ∧
     (fetchDefaultPolicyFulfilled s v).error = s.error) ∧
    ((fetchDefaultPolicyRejected s msg).status = .failed ∧
     (fetchDefaultPolicyRejected s msg).error = some msg ∧
     (fetchDefaultPolicyRejected s msg).policy = s.policy ∧
     (fetchDefaultPolicyRejected s msg).defaultPolicy = s.defaultPolicy) := by
  rw [fetchDefaultPolicyFulfilled_eq]
  refine ⟨⟨rfl, rfl, ?_, ?_, rfl⟩, rfl, rfl, rfl, rfl⟩
  · intro h
    rw [h]
    rfl
  · intro m hm
    rw [hm]
    rfl

/-- Witness for C9: seeding on an absent policy, preservation on a present one. -/
theorem fetchDefaultPolicy_spec_witness :
    (fetchDefaultPolicyFulfilled emptyState (fun _ => none)).policy = some (fun _ => none) ∧
    (fetchDefaultPolicyFulfilled stateWithPolicy
      (fun _ => some ⟨some 1, none⟩)).policy = some (fun _ => none) := by
  constructor
  · exact (fetchDefaultPolicy_spec emptyState (fun _ => none) "x").1.2.2.1 rfl
  · exact (fetchDefaultPolicy_spec stateWithPolicy (fun _ => some ⟨some 1, none⟩)
      "x").1.2.2.2.1 (fun _ => none) rfl

/-- C10 (implicit): only `calculateForecast.pending` clears `error`; the
pending and fulfilled transitions of `fetchDefaultPolicy` and
`fetchDefaults` leave `error` exactly as it was, so a successful fetch after
a failure reports status=succeeded with the stale error still set. -/
theorem stale_error_preserved (s : ForecastState) (v : PolicyMap) (d : DefaultsPayload) :
    (fetchDefaultPolicyPending s).error = s.error ∧
    (fetchDefaultsPending s).error = s.error ∧
    (fetchDefaultPolicyFulfilled (fetchDefaultPolicyPending s) v).error = s.error ∧
    (fetchDefaultPolicyFulfilled (fetchDefaultPolicyPending s) v).status = .succeeded ∧
    (fetchDefaultsFulfilled (fetchDefaultsPending s) d).error = s.error ∧
    (fetchDefaultsFulfilled (fetchDefaultsPending s) d).status = .succeeded ∧
    (calculateForecastPending s).error = none := by
  rw [fetchDefaultPolicyFulfilled_eq]
  exact ⟨rfl, rfl, rfl, rfl, rfl, rfl, rfl⟩

end PropertyTaxes
